import Mathlib

/-!
Verification of the adaptive-scheduler job/learner reconciliation service
against its specification.

The ledger, request handler, reconciler and wire codec are modelled as pure
Lean functions; `BaseScheduler` (from
`src/adaptive_scheduler/_scheduler/base_scheduler.py`) is embedded as a
structure with its path-producing methods.
-/

namespace AdaptiveScheduler

/-- Modelled from the spec: the opaque learner filename of §3 and the design
note "Opaque fname (string or list of strings) → sum type"; the
`DatabaseManager` source holding this type is not under `src/`. -/
inductive Fname where
  | single : String → Fname
  | group : List String → Fname
deriving DecidableEq, Repr

/-- Render an fname for inclusion in error messages. -/
def Fname.render : Fname → String
  | .single s => s
  | .group l => String.intercalate ", " l

/-- Modelled from the spec: the `LearnerEntry` row of §3 (the
`DatabaseManager` source holding the row type is not under `src/`). -/
structure LearnerEntry where
  fname : Fname
  job_id : Option String
  is_done : Bool
  job_name : Option String
  log_fname : Option String
  output_logs : List String
deriving DecidableEq, Repr

/-- The ledger: the ordered collection of learner rows (§3). -/
abbrev Ledger := List LearnerEntry

/-- Modelled from the spec: the reply variant of the design note
"`Fname(value) | Error(message) | Null`". -/
inductive Reply where
  | fname : Fname → Reply
  | error : String → Reply
  | null : Reply
deriving DecidableEq, Repr

/-- A row is free when `job_id = null ∧ is_done = false` (§4.1). -/
def isFree (e : LearnerEntry) : Bool :=
  e.job_id == none && !e.is_done

/-- Modelled from the spec: `find_first_free()` of §4.1 returns the first
free row in insertion order (the `DatabaseManager` source is not under
`src/`). -/
def find_first_free (db : Ledger) : Option LearnerEntry :=
  List.find? isFree db

/-- Modelled from the spec: `find_by_job(j)` of §4.1 returns the row with
`job_id = j` (the `DatabaseManager` source is not under `src/`). -/
def find_by_job (db : Ledger) (j : String) : Option LearnerEntry :=
  List.find? (fun e => e.job_id == some j) db

/-- Modelled from the spec: `update(fname, patch)` of §4.1 applies a field
patch to the row with matching key, a no-op when no row matches (the
`DatabaseManager` source is not under `src/`). -/
def update (db : Ledger) (fname : Fname) (patch : LearnerEntry → LearnerEntry) : Ledger :=
  db.map (fun e => if e.fname = fname then patch e else e)

/-- The `${JOB_ID}` placeholder, as a character list. -/
def jobIdPlaceholder : List Char := "$\x7bJOB_ID\x7d".data

/-- Replace every occurrence of `pat` (left to right, non-overlapping) by
`repl` in `cs`; `pat` must be nonempty. -/
def replaceAux (pat repl : List Char) (hpat : pat ≠ []) : List Char → List Char
  | [] => []
  | c :: rest =>
    if pat.isPrefixOf (c :: rest) then
      repl ++ replaceAux pat repl hpat ((c :: rest).drop pat.length)
    else
      c :: replaceAux pat repl hpat rest
termination_by cs => cs.length
decreasing_by
  · simp only [List.length_drop, List.length_cons]
    have h1 : 1 ≤ pat.length := List.length_pos.mpr hpat
    omega
  · simp

/-- Substitute the actual job id for the `${JOB_ID}` placeholder in a path
(§4.4.1 step 3, §6.3). -/
def substJobId (job_id : String) (path : String) : String :=
  String.mk (replaceAux jobIdPlaceholder job_id.data (by decide) path.data)

/-- The patch a successful `start` applies to the claimed row (§4.4.1). -/
def startPatch (job_id log_fname job_name : String) (logs : List String)
    (e : LearnerEntry) : LearnerEntry :=
  { e with
    job_id := some job_id
    log_fname := some log_fname
    job_name := some job_name
    output_logs := logs }

/-- Modelled from the spec: the `start` request handler of §4.4.1 (the
`DatabaseManager` source is not under `src/`). `output_fnames` is the
scheduler adapter's path function of §6.3; the handler substitutes the job
id for the `${JOB_ID}` placeholder in each returned path. -/
def start_request (db : Ledger) (job_id log_fname job_name : String)
    (output_fnames : String → List String) : Reply × Ledger :=
  match find_by_job db job_id with
  | some e =>
    (Reply.error ("The job_id " ++ job_id ++
      " already exists in the database and runs " ++ e.fname.render), db)
  | none =>
    match find_first_free db with
    | none => (Reply.error "No more learners to run in the database", db)
    | some e =>
      let logs := (output_fnames job_name).map (substJobId job_id)
      (Reply.fname e.fname,
        update db e.fname (startPatch job_id log_fname job_name logs))

/-- The patch `stop` applies to the row (§4.4.2). -/
def stopPatch (e : LearnerEntry) : LearnerEntry :=
  { e with
    job_id := none
    is_done := true
    job_name := none
    log_fname := none
    output_logs := [] }

/-- Modelled from the spec: the `stop` request handler of §4.4.2 (the
`DatabaseManager` source is not under `src/`): terminal patch, null
reply. -/
def stop_request (db : Ledger) (fname : Fname) : Reply × Ledger :=
  (Reply.null, update db fname stopPatch)

/-- The patch the reconciler applies when releasing a row (§4.3 step 3). -/
def releasePatch (e : LearnerEntry) : LearnerEntry :=
  { e with
    job_id := none
    log_fname := none
    output_logs := [] }

/-- Modelled from the spec: the reconciler body of §4.3 steps 2-3 (the
`DatabaseManager` source is not under `src/`): every row whose non-null
`job_id` is absent from the probe's key set `live` is released; `is_done`
is preserved. -/
def reconcile (db : Ledger) (live : List String) : Ledger :=
  db.map (fun e =>
    match e.job_id with
    | some j => if j ∈ live then e else releasePatch e
    | none => e)

/-- Modelled from the spec: one reconciler tick of §4.3 (the
`DatabaseManager` source is not under `src/`). The probe result is an
`Except`: `error` models `probe()` raising, in which case the tick is
skipped and the ledger is untouched (step 1). -/
def tick (db : Ledger) (probe : Except String (List String)) : Ledger :=
  match probe with
  | .error _ => db
  | .ok live => reconcile db live

/-! ## Wire codec (§4.6, §6.1)

Modelled from the spec: the codec source (`_serialize`/`_deserialize` in
`adaptive_scheduler.utils`) is not under `src/`. The spec fixes the message
shapes (§6.1) and the design note "Dynamic tuple protocol → tagged variant";
the encoding itself is the spec's suggested tagged length-prefix format over
a token alphabet of naturals. -/

/-- Modelled from the spec: the wire message forms of §6.1 — the two request
tuples and the reply variant (the codec source is not under `src/`). -/
inductive WireMsg where
  | start : String → String → String → WireMsg
  | stop : Fname → WireMsg
  | replyFname : Fname → WireMsg
  | replyError : String → WireMsg
  | replyNull : WireMsg
deriving DecidableEq, Repr

/-- Length-prefixed encoding of one string. -/
def encodeStr (s : String) : List Nat :=
  s.data.length :: s.data.map Char.toNat

/-- Encoding of an fname: a discriminant, then one string or a counted list
of strings. -/
def encodeFname : Fname → List Nat
  | .single s => 0 :: encodeStr s
  | .group l => 1 :: l.length :: (l.map encodeStr).flatten

/-- Modelled from the spec: `encode` of the wire codec (§4.6) — a tag, then
the components in tuple order (the codec source is not under `src/`). -/
def encode : WireMsg → List Nat
  | .start job_id log_fname job_name =>
      0 :: (encodeStr job_id ++ encodeStr log_fname ++ encodeStr job_name)
  | .stop fname => 1 :: encodeFname fname
  | .replyFname fname => 2 :: encodeFname fname
  | .replyError msg => 3 :: encodeStr msg
  | .replyNull => [4]

/-- Read `n` tokens off the front of the stream. -/
def readN : Nat → List Nat → Option (List Nat × List Nat)
  | 0, ts => some ([], ts)
  | _ + 1, [] => none
  | n + 1, t :: ts => (readN n ts).map (fun p => (t :: p.1, p.2))

/-- Parse one length-prefixed string off the front of the stream. -/
def decodeStr : List Nat → Option (String × List Nat)
  | [] => none
  | n :: ts => (readN n ts).map (fun p => (String.mk (p.1.map Char.ofNat), p.2))

/-- Parse `n` length-prefixed strings off the front of the stream. -/
def decodeStrs : Nat → List Nat → Option (List String × List Nat)
  | 0, ts => some ([], ts)
  | n + 1, ts =>
    match decodeStr ts with
    | none => none
    | some (s, ts2) => (decodeStrs n ts2).map (fun p => (s :: p.1, p.2))

/-- Parse one fname off the front of the stream. -/
def decodeFname (ts : List Nat) : Option (Fname × List Nat) :=
  match ts with
  | [] => none
  | tag :: ts =>
    if tag = 0 then (decodeStr ts).map (fun p => (Fname.single p.1, p.2))
    else if tag = 1 then
      match ts with
      | [] => none
      | n :: ts => (decodeStrs n ts).map (fun p => (Fname.group p.1, p.2))
    else none

/-- Modelled from the spec: `decode` of the wire codec (§4.6) — dispatch on
the tag, parse the components, and demand the stream is fully consumed (the
codec source is not under `src/`). -/
def decode (ts : List Nat) : Option WireMsg :=
  match ts with
  | [] => none
  | tag :: ts =>
    if tag = 0 then
      match decodeStr ts with
      | some (job_id, ts) =>
        match decodeStr ts with
        | some (log_fname, ts) =>
          match decodeStr ts with
          | some (job_name, []) => some (WireMsg.start job_id log_fname job_name)
          | _ => none
        | none => none
      | none => none
    else if tag = 1 then
      match decodeFname ts with
      | some (fname, []) => some (WireMsg.stop fname)
      | _ => none
    else if tag = 2 then
      match decodeFname ts with
      | some (fname, []) => some (WireMsg.replyFname fname)
      | _ => none
    else if tag = 3 then
      match decodeStr ts with
      | some (msg, []) => some (WireMsg.replyError msg)
      | _ => none
    else if tag = 4 then
      match ts with
      | [] => some WireMsg.replyNull
      | _ => none
    else none

/-! ## BaseScheduler (`src/adaptive_scheduler/_scheduler/base_scheduler.py`)

Paths are modelled as strings; `Path(x)` on a string is the identity and
`a / b` is `a ++ "/" ++ b`. -/

/-- The `self._JOB_ID_VARIABLE` constant set in `BaseScheduler.__init__`. -/
def JOB_ID_VARIABLE : String := "$\x7bJOB_ID\x7d"

/-- The configuration state of a `BaseScheduler` after `__init__`
(`base_scheduler.py` lines 70-100). -/
structure BaseScheduler where
  cores : Nat
  run_script : String
  python_executable : String
  log_folder : String
  mpiexec_executable : String
  executor_type : String
  num_threads : Nat
  extra_scheduler : Option (List String)
  extra_env_vars : Option (List String)
  extra_script : String
deriving DecidableEq, Repr

/-- Python's `x or default` over an optional string: `None` and `""` are
falsy and give the default. -/
def pyOr (o : Option String) (d : String) : String :=
  match o with
  | none => d
  | some v => if v = "" then d else v

/-- `BaseScheduler.__init__`: `python_executable or sys.executable`,
`mpiexec_executable or "mpiexec"`, `extra_script if extra_script is not
None else ""`; the rest stored as passed. `sysExecutable` is the ambient
`sys.executable`. -/
def BaseScheduler.init (sysExecutable : String) (cores : Nat) (run_script : String)
    (python_executable : Option String) (log_folder : String)
    (mpiexec_executable : Option String) (executor_type : String)
    (num_threads : Nat) (extra_scheduler : Option (List String))
    (extra_env_vars : Option (List String)) (extra_script : Option String) :
    BaseScheduler :=
  { cores := cores
    run_script := run_script
    python_executable := pyOr python_executable sysExecutable
    log_folder := log_folder
    mpiexec_executable := pyOr mpiexec_executable "mpiexec"
    executor_type := executor_type
    num_threads := num_threads
    extra_scheduler := extra_scheduler
    extra_env_vars := extra_env_vars
    extra_script := (extra_script).getD "" }

/-- `pathlib.Path.with_suffix` on our string paths: remove the extension —
everything from the last `.` of the last component, when that component has
one — then append the new suffix. -/
def withSuffix (p suffix : String) : String :=
  match p.data.reverse.dropWhile (fun c => c != '.' && c != '/') with
  | [] => p ++ suffix
  | c :: rest => if c = '.' then String.mk rest.reverse ++ suffix else p ++ suffix

/-- `BaseScheduler.log_fname` (lines 279-286): an empty `log_folder` is
falsy, so the current working directory `cwd` is used instead; the file is
`{name}-${JOB_ID}.log` inside that folder. -/
def BaseScheduler.log_fname (s : BaseScheduler) (name cwd : String) : String :=
  let log_folder := if s.log_folder = "" then cwd else s.log_folder
  log_folder ++ "/" ++ (name ++ "-" ++ JOB_ID_VARIABLE ++ ".log")

/-- `BaseScheduler.output_fnames` (lines 288-291): the single log path with
its suffix replaced by `.out`. -/
def BaseScheduler.output_fnames (s : BaseScheduler) (name cwd : String) : List String :=
  [withSuffix (s.log_fname name cwd) ".out"]

/-- `BaseScheduler.__getstate__` (lines 322-335): the ten configuration
fields keyed as in the returned dict. -/
structure SchedulerState where
  cores : Nat
  run_script : String
  python_executable : String
  log_folder : String
  mpiexec_executable : String
  executor_type : String
  num_threads : Nat
  extra_scheduler : Option (List String)
  extra_env_vars : Option (List String)
  extra_script : String
deriving DecidableEq, Repr

/-- `BaseScheduler.__getstate__` as a function. -/
def BaseScheduler.getstate (s : BaseScheduler) : SchedulerState :=
  { cores := s.cores
    run_script := s.run_script
    python_executable := s.python_executable
    log_folder := s.log_folder
    mpiexec_executable := s.mpiexec_executable
    executor_type := s.executor_type
    num_threads := s.num_threads
    extra_scheduler := s.extra_scheduler
    extra_env_vars := s.extra_env_vars
    extra_script := s.extra_script }

/-- `BaseScheduler.__setstate__` (lines 337-339): `self.__init__(**state)`,
so the stored strings are passed back as present optionals. -/
def BaseScheduler.setstate (sysExecutable : String) (st : SchedulerState) : BaseScheduler :=
  BaseScheduler.init sysExecutable st.cores st.run_script
    (some st.python_executable) st.log_folder (some st.mpiexec_executable)
    st.executor_type st.num_threads st.extra_scheduler st.extra_env_vars
    (some st.extra_script)

/-! ## Sample inputs used by witnesses -/

/-- A fresh row for `a.pkl`. -/
def entryA : LearnerEntry :=
  { fname := .single "a.pkl", job_id := none, is_done := false,
    job_name := none, log_fname := none, output_logs := [] }

/-- A fresh row for `b.pkl`. -/
def entryB : LearnerEntry :=
  { fname := .single "b.pkl", job_id := none, is_done := false,
    job_name := none, log_fname := none, output_logs := [] }

/-- A claimed row for `c.pkl`, owned by job `J7`. -/
def entryC : LearnerEntry :=
  { fname := .single "c.pkl", job_id := some "J7", is_done := false,
    job_name := some "job7", log_fname := some "l7.log",
    output_logs := ["job7-J7.out"] }

/-- A terminal row for `d.pkl`. -/
def entryD : LearnerEntry :=
  { fname := .single "d.pkl", job_id := none, is_done := true,
    job_name := none, log_fname := none, output_logs := [] }

/-- A two-row sample ledger of fresh rows. -/
def sampleDb : Ledger := [entryA, entryB]

/-- A sample scheduler-adapter `output_fnames` function. -/
def sampleOfn (name : String) : List String :=
  [name ++ "-$\x7bJOB_ID\x7d.out"]

/-! ## Helper lemmas -/

/-- A row passes the free test iff its `job_id` is null and it is not done. -/
lemma isFree_iff (e : LearnerEntry) :
    isFree e = true ↔ (e.job_id = none ∧ e.is_done = false) := by
  simp [isFree]

/-- A successful `find?` locates its result at an index all of whose
predecessors fail the predicate. -/
lemma find?_minimal {α : Type} (p : α → Bool) (l : List α) (e : α)
    (h : List.find? p l = some e) :
    ∃ i : Nat, l[i]? = some e ∧
      ∀ (k : Nat) (x : α), k < i → l[k]? = some x → p x = false := by
  induction l with
  | nil => simp at h
  | cons a t ih =>
    rw [List.find?_cons] at h
    split at h
    · injection h with h2
      subst h2
      exact ⟨0, List.getElem?_cons_zero,
        fun k x hk _ => absurd hk (Nat.not_lt_zero k)⟩
    · rename_i heq
      obtain ⟨i, hi, hmin⟩ := ih h
      refine ⟨i + 1, by simpa using hi, ?_⟩
      intro k x hk hkx
      match k with
      | 0 =>
        rw [List.getElem?_cons_zero] at hkx
        injection hkx with hkx
        subst hkx
        exact heq
      | m + 1 =>
        rw [List.getElem?_cons_succ] at hkx
        exact hmin m x (by omega) hkx

/-- `update` with a patch that preserves the key and is idempotent is itself
idempotent. -/
lemma update_idem (db : Ledger) (f : Fname) (patch : LearnerEntry → LearnerEntry)
    (hkey : ∀ e, (patch e).fname = e.fname)
    (hidem : ∀ e, patch (patch e) = patch e) :
    update (update db f patch) f patch = update db f patch := by
  rw [update, update, List.map_map]
  refine List.map_congr_left ?_
  intro e _
  simp only [Function.comp]
  by_cases hef : e.fname = f
  · simp [hef, hkey, hidem]
  · simp [hef]

/-- `update` is the identity when no row carries the key. -/
lemma update_no_match (db : Ledger) (f : Fname) (patch : LearnerEntry → LearnerEntry)
    (h : ∀ e ∈ db, e.fname ≠ f) :
    update db f patch = db := by
  rw [update]
  have hcongr : ∀ e ∈ db, (if e.fname = f then patch e else e) = id e :=
    fun e he => by simp [h e he]
  rw [List.map_congr_left hcongr, List.map_id]

/-- A ledger with no row owned by job `j` makes `find_by_job` miss. -/
lemma find_by_job_eq_none (db : Ledger) (j : String)
    (h : ∀ e ∈ db, e.job_id ≠ some j) :
    find_by_job db j = none := by
  rw [find_by_job, List.find?_eq_none]
  intro x hx
  simp [h x hx]

/-! ## Claim theorems -/

/-- C2: when some row of the ledger already carries job id `j`, a `start`
request with job id `j` is answered with the error value
`"The job_id {j} already exists in the database and runs {fname}"` naming
that row's fname, and the ledger is returned unmodified. -/
theorem start_request_duplicate (db : Ledger) (j lf n : String)
    (ofn : String → List String)
    (hdup : ∃ x ∈ db, x.job_id = some j) :
    ∃ e ∈ db, e.job_id = some j ∧
      start_request db j lf n ofn =
        (Reply.error ("The job_id " ++ j ++
          " already exists in the database and runs " ++ e.fname.render), db) := by
  have h1 : (find_by_job db j).isSome := by
    rw [find_by_job, List.find?_isSome]
    obtain ⟨x, hx, hj⟩ := hdup
    exact ⟨x, hx, by simp [hj]⟩
  obtain ⟨e, he⟩ := Option.isSome_iff_exists.mp h1
  have heF : List.find? (fun x => x.job_id == some j) db = some e := he
  have hmem := List.mem_of_find?_eq_some heF
  have hpe : e.job_id = some j := by simpa using List.find?_some heF
  exact ⟨e, hmem, hpe, by simp [start_request, he]⟩

/-- Witness for C2: a one-row ledger whose row is owned by `J7` rejects a
second `start` from `J7`. -/
theorem start_request_duplicate_witness :
    (∃ x ∈ [entryC], x.job_id = some "J7") ∧
    (∃ e ∈ [entryC], e.job_id = some "J7" ∧
      start_request [entryC] "J7" "l.log" "job" sampleOfn =
        (Reply.error ("The job_id " ++ "J7" ++
          " already exists in the database and runs " ++ e.fname.render),
          [entryC])) :=
  ⟨by decide,
    start_request_duplicate [entryC] "J7" "l.log" "job" sampleOfn (by decide)⟩

/-- C4: a reconciler tick whose queue probe raises performs no ledger
mutation at all. -/
theorem tick_skips_on_probe_failure (db : Ledger) (msg : String) :
    tick db (Except.error msg) = db := rfl

/-- C5: a `stop` request replies null, keeps the ledger's length, patches
every row carrying the fname to the terminal state (`job_id`, `job_name`,
`log_fname` null, `is_done` true, `output_logs` empty) and leaves every
other row untouched. -/
theorem stop_request_updates_row (db : Ledger) (f : Fname)
    (hmem : ∃ e ∈ db, e.fname = f) :
    (stop_request db f).1 = Reply.null ∧
    (stop_request db f).2.length = db.length ∧
    ∀ (k : Nat) (e : LearnerEntry), db[k]? = some e →
      ((stop_request db f).2)[k]? =
        some (if e.fname = f then
          { e with job_id := none, is_done := true, job_name := none,
                   log_fname := none, output_logs := [] }
          else e) := by
  refine ⟨rfl, by simp [stop_request, update], ?_⟩
  intro k e hk
  simp [stop_request, update, List.getElem?_map, hk, stopPatch]

/-- Witness for C5: stopping `a.pkl` in the two-row sample ledger. -/
theorem stop_request_updates_row_witness :
    (∃ e ∈ sampleDb, e.fname = Fname.single "a.pkl") ∧
    ((stop_request sampleDb (Fname.single "a.pkl")).1 = Reply.null ∧
     (stop_request sampleDb (Fname.single "a.pkl")).2.length = sampleDb.length ∧
     ∀ (k : Nat) (e : LearnerEntry), sampleDb[k]? = some e →
       ((stop_request sampleDb (Fname.single "a.pkl")).2)[k]? =
         some (if e.fname = Fname.single "a.pkl" then
           { e with job_id := none, is_done := true, job_name := none,
                    log_fname := none, output_logs := [] }
           else e)) :=
  ⟨by decide, stop_request_updates_row sampleDb (Fname.single "a.pkl") (by decide)⟩

/-- C6: when no row is free and the requesting job id is fresh, `start` is
answered with the exhaustion error and the ledger is unchanged. -/
theorem start_request_exhausted (db : Ledger) (j lf n : String)
    (ofn : String → List String)
    (hnofree : ∀ e ∈ db, ¬(e.job_id = none ∧ e.is_done = false))
    (hfresh : ∀ e ∈ db, e.job_id ≠ some j) :
    start_request db j lf n ofn =
      (Reply.error "No more learners to run in the database", db) := by
  have h1 := find_by_job_eq_none db j hfresh
  have h2 : find_first_free db = none := by
    rw [find_first_free, List.find?_eq_none]
    intro x hx hc
    exact hnofree x hx ((isFree_iff x).mp hc)
  simp [start_request, h1, h2]

/-- Witness for C6: a ledger of one claimed and one terminal row exhausts a
fresh `start` from `J9`. -/
theorem start_request_exhausted_witness :
    (∀ e ∈ [entryC, entryD], ¬(e.job_id = none ∧ e.is_done = false)) ∧
    (∀ e ∈ [entryC, entryD], e.job_id ≠ some "J9") ∧
    start_request [entryC, entryD] "J9" "l.log" "job" sampleOfn =
      (Reply.error "No more learners to run in the database",
        [entryC, entryD]) :=
  ⟨by decide, by decide,
    start_request_exhausted [entryC, entryD] "J9" "l.log" "job" sampleOfn
      (by decide) (by decide)⟩

/-- C7: `stop` is idempotent on the ledger, and a `stop` whose fname matches
no row leaves the ledger unchanged while still replying null. -/
theorem stop_request_idempotent_total (db : Ledger) (f : Fname) :
    (stop_request (stop_request db f).2 f).2 = (stop_request db f).2 ∧
    ((∀ e ∈ db, e.fname ≠ f) → stop_request db f = (Reply.null, db)) := by
  constructor
  · simp only [stop_request]
    exact update_idem db f stopPatch (fun _ => rfl) (fun _ => rfl)
  · intro h
    simp only [stop_request]
    rw [update_no_match db f stopPatch h]

/-- Witness for C7: stopping an unknown fname `z.pkl` twice on the sample
ledger. -/
theorem stop_request_idempotent_total_witness :
    (∀ e ∈ sampleDb, e.fname ≠ Fname.single "z.pkl") ∧
    ((stop_request (stop_request sampleDb (Fname.single "z.pkl")).2
        (Fname.single "z.pkl")).2 =
      (stop_request sampleDb (Fname.single "z.pkl")).2 ∧
    ((∀ e ∈ sampleDb, e.fname ≠ Fname.single "z.pkl") →
      stop_request sampleDb (Fname.single "z.pkl") = (Reply.null, sampleDb))) :=
  ⟨by decide, stop_request_idempotent_total sampleDb (Fname.single "z.pkl")⟩

/-- C1: on a ledger with at least one free row, a `start` whose job id
matches no row claims the first free row in insertion order — every earlier
row is not free — setting its `job_id`, `log_fname`, `job_name` and
`output_logs` (the adapter paths with the job id substituted), leaving all
other rows untouched, and the reply is that row's fname verbatim. -/
theorem start_request_claims_first_free (db : Ledger) (j lf n : String)
    (ofn : String → List String)
    (hfree : ∃ e ∈ db, e.job_id = none ∧ e.is_done = false)
    (hfresh : ∀ e ∈ db, e.job_id ≠ some j) :
    ∃ (i : Nat) (e : LearnerEntry), db[i]? = some e ∧
      e.job_id = none ∧ e.is_done = false ∧
      (∀ (k : Nat) (x : LearnerEntry), k < i → db[k]? = some x →
        ¬(x.job_id = none ∧ x.is_done = false)) ∧
      (start_request db j lf n ofn).1 = Reply.fname e.fname ∧
      (start_request db j lf n ofn).2.length = db.length ∧
      (∀ (k : Nat) (x : LearnerEntry), db[k]? = some x →
        ((start_request db j lf n ofn).2)[k]? =
          some (if x.fname = e.fname then
            { x with job_id := some j, log_fname := some lf,
                     job_name := some n,
                     output_logs := (ofn n).map (substJobId j) }
            else x)) := by
  have hbyjob := find_by_job_eq_none db j hfresh
  have hsome : (find_first_free db).isSome := by
    rw [find_first_free, List.find?_isSome]
    obtain ⟨e, he, h1, h2⟩ := hfree
    exact ⟨e, he, (isFree_iff e).mpr ⟨h1, h2⟩⟩
  obtain ⟨e, he⟩ := Option.isSome_iff_exists.mp hsome
  have heF : List.find? isFree db = some e := he
  have hpe := (isFree_iff e).mp (List.find?_some heF)
  obtain ⟨i, hi, hmin⟩ := find?_minimal isFree db e heF
  refine ⟨i, e, hi, hpe.1, hpe.2, ?_, ?_, ?_, ?_⟩
  · intro k x hk hkx hcon
    have hfx := hmin k x hk hkx
    have htrue := (isFree_iff x).mpr hcon
    rw [hfx] at htrue
    exact Bool.noConfusion htrue
  · simp [start_request, hbyjob, he]
  · simp [start_request, hbyjob, he, update]
  · intro k x hkx
    simp [start_request, hbyjob, he, update, List.getElem?_map, hkx, startPatch]

/-- Witness for C1: `J1` claims `a.pkl`, the first free row of the sample
ledger. -/
theorem start_request_claims_first_free_witness :
    (∃ e ∈ sampleDb, e.job_id = none ∧ e.is_done = false) ∧
    (∀ e ∈ sampleDb, e.job_id ≠ some "J1") ∧
    (∃ (i : Nat) (e : LearnerEntry), sampleDb[i]? = some e ∧
      e.job_id = none ∧ e.is_done = false ∧
      (∀ (k : Nat) (x : LearnerEntry), k < i → sampleDb[k]? = some x →
        ¬(x.job_id = none ∧ x.is_done = false)) ∧
      (start_request sampleDb "J1" "log.log" "job1" sampleOfn).1 =
        Reply.fname e.fname ∧
      (start_request sampleDb "J1" "log.log" "job1" sampleOfn).2.length =
        sampleDb.length ∧
      (∀ (k : Nat) (x : LearnerEntry), sampleDb[k]? = some x →
        ((start_request sampleDb "J1" "log.log" "job1" sampleOfn).2)[k]? =
          some (if x.fname = e.fname then
            { x with job_id := some "J1", log_fname := some "log.log",
                     job_name := some "job1",
                     output_logs := (sampleOfn "job1").map (substJobId "J1") }
            else x))) :=
  ⟨by decide, by decide,
    start_request_claims_first_free sampleDb "J1" "log.log" "job1" sampleOfn
      (by decide) (by decide)⟩

/-- C3: a reconciler tick with a successful probe keeps the ledger's
length, leaves rows with a null `job_id` and rows whose `job_id` is among
the probed keys entirely unchanged, and clears `job_id`, `log_fname` and
`output_logs` — preserving `is_done` and the rest of the row — of exactly
the rows whose non-null `job_id` is absent from the probed keys. -/
theorem tick_releases_vanished (db : Ledger) (live : List String)
    (k : Nat) (e : LearnerEntry) (hk : db[k]? = some e) :
    (tick db (Except.ok live)).length = db.length ∧
    (e.job_id = none → (tick db (Except.ok live))[k]? = some e) ∧
    (∀ jj, e.job_id = some jj → jj ∈ live →
      (tick db (Except.ok live))[k]? = some e) ∧
    (∀ jj, e.job_id = some jj → jj ∉ live →
      (tick db (Except.ok live))[k]? =
        some { e with job_id := none, log_fname := none,
                      output_logs := [] }) := by
  refine ⟨by simp [tick, reconcile], ?_, ?_, ?_⟩
  · intro hnone
    simp [tick, reconcile, List.getElem?_map, hk, hnone]
  · intro jj hjj hmem
    simp [tick, reconcile, List.getElem?_map, hk, hjj, hmem]
  · intro jj hjj hmem
    simp [tick, reconcile, List.getElem?_map, hk, hjj, hmem, releasePatch]

/-- Witness for C3: with an empty probe, the claimed row `c.pkl` (owned by
the vanished job `J7`) is released and `is_done` survives. -/
theorem tick_releases_vanished_witness :
    ([entryC, entryA] : Ledger)[0]? = some entryC ∧
    ((tick [entryC, entryA] (Except.ok [])).length =
      ([entryC, entryA] : Ledger).length ∧
    (entryC.job_id = none → (tick [entryC, entryA] (Except.ok []))[0]? =
      some entryC) ∧
    (∀ jj, entryC.job_id = some jj → jj ∈ ([] : List String) →
      (tick [entryC, entryA] (Except.ok []))[0]? = some entryC) ∧
    (∀ jj, entryC.job_id = some jj → jj ∉ ([] : List String) →
      (tick [entryC, entryA] (Except.ok []))[0]? =
        some { entryC with job_id := none, log_fname := none,
                           output_logs := [] })) :=
  ⟨by decide, tick_releases_vanished [entryC, entryA] [] 0 entryC (by decide)⟩

/-! ## Codec round-trip lemmas -/

/-- Reading back exactly the tokens that were written leaves the rest. -/
lemma readN_append (l rest : List Nat) :
    readN l.length (l ++ rest) = some (l, rest) := by
  induction l with
  | nil => rfl
  | cons a t ih => simp [readN, ih]

/-- Rebuilding a string from its data is the identity. -/
lemma string_mk_data (s : String) : String.mk s.data = s := rfl

/-- Decoding a length-prefixed string consumes exactly its encoding. -/
lemma decodeStr_encodeStr (s : String) (rest : List Nat) :
    decodeStr (encodeStr s ++ rest) = some (s, rest) := by
  rw [encodeStr, List.cons_append, decodeStr]
  have hlen : s.data.length = (s.data.map Char.toNat).length :=
    (List.length_map _ _).symm
  rw [hlen, readN_append]
  have hmap : (s.data.map Char.toNat).map Char.ofNat = s.data := by
    rw [List.map_map]
    have : ∀ c ∈ s.data, (Char.ofNat ∘ Char.toNat) c = id c :=
      fun c _ => Char.ofNat_toNat c
    rw [List.map_congr_left this, List.map_id]
  simp [hmap, string_mk_data]

/-- Decoding a counted run of strings consumes exactly their encodings. -/
lemma decodeStrs_append (ls : List String) (rest : List Nat) :
    decodeStrs ls.length ((ls.map encodeStr).flatten ++ rest) =
      some (ls, rest) := by
  induction ls with
  | nil => rfl
  | cons s t ih =>
    simp only [List.map_cons, List.flatten_cons, List.length_cons,
      List.append_assoc]
    rw [decodeStrs, decodeStr_encodeStr]
    simp [ih]

/-- Decoding an fname consumes exactly its encoding. -/
lemma decodeFname_encodeFname (f : Fname) (rest : List Nat) :
    decodeFname (encodeFname f ++ rest) = some (f, rest) := by
  cases f with
  | single s =>
    simp [encodeFname, decodeFname, decodeStr_encodeStr]
  | group l =>
    simp [encodeFname, decodeFname, List.append_assoc, decodeStrs_append]

/-- C8: the wire codec is symmetric — decoding the encoding of every legal
message, including stop and reply messages whose fname is a list of
strings, yields the original message. -/
theorem decode_encode (m : WireMsg) : decode (encode m) = some m := by
  cases m with
  | start j lf n =>
    have h3 := decodeStr_encodeStr n []
    rw [List.append_nil] at h3
    simp [encode, decode, List.append_assoc, decodeStr_encodeStr, h3]
  | stop f =>
    have h := decodeFname_encodeFname f []
    rw [List.append_nil] at h
    simp [encode, decode, h]
  | replyFname f =>
    have h := decodeFname_encodeFname f []
    rw [List.append_nil] at h
    simp [encode, decode, h]
  | replyError msg =>
    have h := decodeStr_encodeStr msg []
    rw [List.append_nil] at h
    simp [encode, decode, h]
  | replyNull => rfl

/-! ## BaseScheduler lemmas -/

/-- Replacing the suffix of a path that ends in `.log` swaps exactly that
extension. -/
lemma withSuffix_log_out (A : String) :
    withSuffix (A ++ ".log") ".out" = A ++ ".out" := by
  have hdata : (A ++ ".log").data = A.data ++ ['.', 'l', 'o', 'g'] := by
    rw [String.data_append]
  have hdrop : List.dropWhile (fun c => c != '.' && c != '/')
      ((A ++ ".log").data.reverse) = '.' :: A.data.reverse := by
    rw [hdata, List.reverse_append]
    simp [List.dropWhile_cons]
  rw [withSuffix, hdrop]
  simp [string_mk_data]

/-- C9: `BaseScheduler.output_fnames` is the single path
`log_folder/{name}-${JOB_ID}` with suffix `.out` (the working directory
standing in for an empty `log_folder`), and every element of the list
contains the `${JOB_ID}` placeholder. -/
theorem output_fnames_single_placeholder (s : BaseScheduler) (name cwd : String) :
    s.output_fnames name cwd =
      [(if s.log_folder = "" then cwd else s.log_folder) ++ "/" ++
        (name ++ "-" ++ JOB_ID_VARIABLE) ++ ".out"] ∧
    ∀ p ∈ s.output_fnames name cwd,
      ∃ t u, p.data = t ++ JOB_ID_VARIABLE.data ++ u := by
  have key : s.output_fnames name cwd =
      [(if s.log_folder = "" then cwd else s.log_folder) ++ "/" ++
        (name ++ "-" ++ JOB_ID_VARIABLE) ++ ".out"] := by
    rw [BaseScheduler.output_fnames, BaseScheduler.log_fname]
    have hassoc :
        (if s.log_folder = "" then cwd else s.log_folder) ++ "/" ++
          (name ++ "-" ++ JOB_ID_VARIABLE ++ ".log") =
        ((if s.log_folder = "" then cwd else s.log_folder) ++ "/" ++
          (name ++ "-" ++ JOB_ID_VARIABLE)) ++ ".log" := by
      simp [String.append_assoc]
    simp only [hassoc, withSuffix_log_out]
  refine ⟨key, ?_⟩
  intro p hp
  rw [key, List.mem_singleton] at hp
  subst hp
  refine ⟨((if s.log_folder = "" then cwd else s.log_folder) ++ "/" ++
    (name ++ "-")).data, ".out".data, ?_⟩
  simp [String.data_append, List.append_assoc]

/-- `Python's x or d` applied to its own result is a fixpoint. -/
lemma pyOr_some_pyOr (o : Option String) (d : String) :
    pyOr (some (pyOr o d)) d = pyOr o d := by
  cases o with
  | none => simp [pyOr]
  | some v =>
    by_cases hv : v = ""
    · simp [pyOr, hv]
    · simp [pyOr, hv]

/-- C10: `__setstate__` applied to the result of `__getstate__` rebuilds a
scheduler whose configuration fields all equal the original's, for every
scheduler produced by `__init__`. -/
theorem setstate_getstate_id (sysE : String) (cores : Nat) (run_script : String)
    (py : Option String) (log_folder : String) (mpi : Option String)
    (exe : String) (nthreads : Nat) (es ev : Option (List String))
    (escript : Option String) :
    BaseScheduler.setstate sysE
      (BaseScheduler.getstate
        (BaseScheduler.init sysE cores run_script py log_folder mpi exe
          nthreads es ev escript)) =
      BaseScheduler.init sysE cores run_script py log_folder mpi exe
        nthreads es ev escript := by
  simp [BaseScheduler.setstate, BaseScheduler.getstate, BaseScheduler.init,
    pyOr_some_pyOr]

end AdaptiveScheduler
